import Mathlib

/-!
Verification development for the optiFretSNCF repository.

The first part embeds the Gurobi model built in the notebook
`code/notebooks/Code plus d'actualité.ipynb` (model "SNCF JALON 1"):
integer start-time variables `t[m,n]` for task `m` of wagon `n`,
binary indicator families `delta_1` (machine mutual exclusion) and
`delta_2` (availability-calendar membership), and the posted constraints.
A Gurobi `addGenConstrIndicator(b, True, e)` call is embedded as the
implication `b = true → e`; binary variables are embedded as `Bool`
with the coercion `b2i` into `ℤ`; integer variables carry the solver's
default lower bound `0` (`bornesVariables`).

The second part embeds the functions of `code/module/utils1.py`, whose
compiled bytecode in the repository survives only partially (docstrings,
string constants and identifier tables); definitions there that rely on
the specification for the lost bodies say so in their doc comments.
-/

namespace OptiFret

/-- Coercion of a binary (0/1) solver variable into `ℤ`. -/
def b2i (b : Bool) : ℤ := if b then 1 else 0

/-- Durées des tâches: `T = np.array([15,45,15,15,150,15,20])` in the notebook. -/
def T : Fin 7 → ℤ := ![15, 45, 15, 15, 150, 15, 20]

/-- The hour marks of the notebook's `Limites` array, before the `*60` scaling:
`[5, 13, 5*24+13, 5*24+21, 6*24+13, 6*24+21, 7*24+5, 7*24+13]`. -/
def LimitesHeures : Fin 8 → ℤ :=
  ![5, 13, 5 * 24 + 13, 5 * 24 + 21, 6 * 24 + 13, 6 * 24 + 21, 7 * 24 + 5, 7 * 24 + 13]

/-- `Limites = np.array([...]) * 60`: closing/opening limit times in minutes. -/
def Limites (i : Fin 8) : ℤ := 60 * LimitesHeures i

/-- Tasks looped over by the `delta_1` mutual-exclusion cell: `for m in [2,4,5]`. -/
def machinesDelta1 : List (Fin 7) := [2, 4, 5]

/-- Tasks looped over by the `delta_2` calendar cell: `for m in [2,3,4,5]`. -/
def tachesDelta2 : List (Fin 7) := [2, 3, 4, 5]

/-- The decision variables of the notebook model: `t` (shape `(M,N) = (7,5)`,
integer), `delta_1` (shape `(M,N,N,2)`, binary) and `delta_2` (shape
`(M,N,11)`, binary). -/
structure Jalon1Vars where
  t : Fin 7 → Fin 5 → ℤ
  delta_1 : Fin 7 → Fin 5 → Fin 5 → Fin 2 → Bool
  delta_2 : Fin 7 → Fin 5 → Fin 11 → Bool

/-- Default lower bound `0` of the Gurobi integer variables `t[m,n]`
(`addMVar` with `vtype = GRB.INTEGER` and no explicit `lb`). -/
@[reducible] def bornesVariables (v : Jalon1Vars) : Prop :=
  ∀ m : Fin 7, ∀ n : Fin 5, 0 ≤ v.t m n

/-- The constraints of the notebook's temporality cell: for every wagon `n`,
`t[0,n] ≥ t_a[n]`, `t[M-1,n] + T[M-1] ≤ t_d[n]`, and
`t[m,n] + T[m] ≤ t[m+1,n]` for `m in range(M-1)`.  The arrival and
departure times `t_a`, `t_d` are data parameters (the notebook leaves
them as placeholders). -/
@[reducible] def contraintesTemporalite (ta td : Fin 5 → ℤ) (v : Jalon1Vars) : Prop :=
  ∀ n : Fin 5,
    v.t 0 n ≥ ta n ∧
    v.t 6 n + T 6 ≤ td n ∧
    ∀ m : Fin 6, v.t m.castSucc n + T m.castSucc ≤ v.t m.succ n

/-- The constraints of the notebook's machine cell: for `m in [2,4,5]` and
every pair `n1 < n2`, two indicator constraints
`delta_1[m,n1,n2,0] = 1 → t[m,n2] ≤ t[m,n1] - T[m]`,
`delta_1[m,n1,n2,1] = 1 → t[m,n2] ≥ t[m,n1] + T[m]`, and
`delta_1[m,n1,n2,0] + delta_1[m,n1,n2,1] ≥ 1`. -/
@[reducible] def contraintesDelta1 (v : Jalon1Vars) : Prop :=
  ∀ m ∈ machinesDelta1, ∀ n1 n2 : Fin 5, n1 < n2 →
    (v.delta_1 m n1 n2 0 = true → v.t m n2 ≤ v.t m n1 - T m) ∧
    (v.delta_1 m n1 n2 1 = true → v.t m n2 ≥ v.t m n1 + T m) ∧
    1 ≤ b2i (v.delta_1 m n1 n2 0) + b2i (v.delta_1 m n1 n2 1)

/-- The constraint group posted by the notebook's calendar cell for one task
occurrence: eight indicator constraints tying `delta_2[m,n,0..7]` to one
bound each against `Limites`, three product constraints defining
`delta_2[m,n,8..10]`, and the disjunction
`delta_2[m,n,0] + delta_2[m,n,8] + delta_2[m,n,9] + delta_2[m,n,10] + delta_2[m,n,7] ≥ 1`. -/
@[reducible] def contraintesDelta2Une (Tm t : ℤ) (d : Fin 11 → Bool) : Prop :=
  (d 0 = true → t ≤ Limites 0 - Tm) ∧
  (d 1 = true → t ≥ Limites 1) ∧
  (d 2 = true → t ≤ Limites 2 - Tm) ∧
  (d 3 = true → t ≥ Limites 3) ∧
  (d 4 = true → t ≤ Limites 4 - Tm) ∧
  (d 5 = true → t ≥ Limites 5) ∧
  (d 6 = true → t ≤ Limites 6 - Tm) ∧
  (d 7 = true → t ≥ Limites 7) ∧
  b2i (d 8) = b2i (d 1) * b2i (d 2) ∧
  b2i (d 9) = b2i (d 3) * b2i (d 4) ∧
  b2i (d 10) = b2i (d 5) * b2i (d 6) ∧
  1 ≤ b2i (d 0) + b2i (d 8) + b2i (d 9) + b2i (d 10) + b2i (d 7)

/-- The notebook's calendar cell applied to all `m in [2,3,4,5]` and all wagons. -/
@[reducible] def contraintesDelta2 (v : Jalon1Vars) : Prop :=
  ∀ m ∈ tachesDelta2, ∀ n : Fin 5, contraintesDelta2Une (T m) (v.t m n) (v.delta_2 m n)

/-- An assignment is feasible for the notebook model when it satisfies the
variable bounds and the three posted constraint families. -/
@[reducible] def modeleRealisable (ta td : Fin 5 → ℤ) (v : Jalon1Vars) : Prop :=
  bornesVariables v ∧ contraintesTemporalite ta td v ∧
    contraintesDelta1 v ∧ contraintesDelta2 v

/-- The availability calendar encoded by the calendar cell: the complement of
the closure windows `[Limites 0, Limites 1], [Limites 2, Limites 3],
[Limites 4, Limites 5], [Limites 6, Limites 7]`, that is five availability
intervals, the last one unbounded (`none` end). -/
def calendrier : List (ℤ × Option ℤ) :=
  [(0, some (Limites 0)), (Limites 1, some (Limites 2)), (Limites 3, some (Limites 4)),
   (Limites 5, some (Limites 6)), (Limites 7, none)]

/-- A task interval `[t, t + Tm)` lies entirely inside an availability
interval: `a ≤ t` and, when the interval is bounded, `t + Tm ≤ b`. -/
def dansIntervalle (t Tm : ℤ) : ℤ × Option ℤ → Prop
  | (a, some b) => a ≤ t ∧ t + Tm ≤ b
  | (a, none) => a ≤ t

/-- Two half-open task intervals share a time point. -/
def seChevauchent (s1 T1 s2 T2 : ℤ) : Prop :=
  ∃ x : ℤ, (s1 ≤ x ∧ x < s1 + T1) ∧ (s2 ≤ x ∧ x < s2 + T2)

/-- Test arrival times used for concrete feasibility evidence. -/
def taTest : Fin 5 → ℤ := fun _ => 0

/-- Test departure times used for concrete feasibility evidence. -/
def tdTest : Fin 5 → ℤ := fun _ => 100000

/-- A concrete schedule: wagon `n` runs its task chain inside the second
availability interval `[780, 7980)`, offset by `400 · n`. -/
def tTest : Fin 7 → Fin 5 → ℤ :=
  fun m n => ![780, 795, 840, 855, 870, 1020, 1035] m + 400 * (n : ℤ)

/-- Order indicators for the test schedule: later wagons run after earlier ones. -/
def delta1Test : Fin 7 → Fin 5 → Fin 5 → Fin 2 → Bool := fun _ _ _ k => k == 1

/-- Calendar indicators for the test schedule: every task sits in the second
availability interval (`delta_2[·,·,1] = delta_2[·,·,2] = delta_2[·,·,8] = 1`). -/
def delta2Test : Fin 7 → Fin 5 → Fin 11 → Bool := fun _ _ j => j == 1 || j == 2 || j == 8

/-- The concrete test assignment. -/
def varsTest : Jalon1Vars := ⟨tTest, delta1Test, delta2Test⟩

/-- Calendar indicators witnessing that the posted `delta_2` constraints do not
force the eleven indicators of a task occurrence to sum to `1`: indicators `0`
and `2` both set. -/
def dCex : Fin 11 → Bool := fun j => j == 0 || j == 2

/-- One raw weekly unavailability window as matched by the regular expression
`\((\d+),\s*(\d{1,2}):(\d{2})-(\d{1,2}):(\d{2})\)` of `convertir_en_minutes`
in `utils1.py`: a day number and the start and end hour/minute fields. -/
structure PlageBrute where
  jour : ℤ
  debutH : ℤ
  debutM : ℤ
  finH : ℤ
  finM : ℤ
deriving DecidableEq

/-- Modelled from the spec: conversion of a parsed window's start field to
absolute minutes from the reference origin (day 1 starting at the Monday
origin); the compiled bytecode of `convertir_en_minutes` is corrupted in the
repository and only its docstring, regular expression, the constant `10080`
and its identifier table survive. -/
def debutMinutes (p : PlageBrute) : ℤ := (p.jour - 1) * (24 * 60) + 60 * p.debutH + p.debutM

/-- Modelled from the spec: conversion of a parsed window's end field to
absolute minutes from the reference origin, symmetric to `debutMinutes`. -/
def finMinutes (p : PlageBrute) : ℤ := (p.jour - 1) * (24 * 60) + 60 * p.finH + p.finM

/-- Modelled from the spec: `dernier_depart` of `utils1.py` computes the
minutes elapsed from the reference origin to the last departure of the
instance (surviving docstring: « jusqu'au dernier départ »); embedded as the
maximum of the departure times, in minutes. -/
def dernier_depart (departs : List ℤ) : ℤ := departs.foldl max 0

/-- Modelled from the spec: the number of weekly copies of a window kept by
`convertir_en_minutes`, namely the copies whose shifted start does not exceed
the horizon (spec: « replicating it every 7×24×60 minutes until the replicated
start exceeds the horizon »). -/
def nbSemaines (horizon debut : ℤ) : ℕ :=
  if debut ≤ horizon then (horizon - debut).toNat / 10080 + 1 else 0

/-- Modelled from the spec: the weekly replication of one converted window,
shifted by `semaine * 10080` minutes for each kept week (`semaine_offset` in
the surviving identifier table of `convertir_en_minutes`). -/
def plagesEtendues (horizon : ℤ) (p : PlageBrute) : List (ℤ × ℤ) :=
  (List.range (nbSemaines horizon (debutMinutes p))).map
    (fun semaine : ℕ =>
      (debutMinutes p + 10080 * (semaine : ℤ), finMinutes p + 10080 * (semaine : ℤ)))

/-- Modelled from the spec: `convertir_en_minutes` of `utils1.py` converts the
parsed unavailability windows to minutes and extends them weekly up to the
time of the last departure (`dernier_depart`); it performs no validation of
the windows (no error name beside `ValueError`, which belongs to
`convert_hour_to_minutes`, occurs in the module's identifier tables). -/
def convertir_en_minutes (plages : List PlageBrute) (departs : List ℤ) : List (ℤ × ℤ) :=
  plages.flatMap (plagesEtendues (dernier_depart departs))

/-- Modelled from the spec: `creation_limites_machines` of `utils1.py` applies
`convertir_en_minutes` to each machine's unavailability specification and
organises the results per machine identifier. -/
def creation_limites_machines (machines : List (String × List PlageBrute))
    (departs : List ℤ) : List (String × List (ℤ × ℤ)) :=
  machines.map (fun mp => (mp.1, convertir_en_minutes mp.2 departs))

/-- One step of the correspondence-dictionary construction: append the arrival
train to the list of the departure train's key, creating the key at the end
when it is new. -/
def ajouteCorrespondance (dico : List (String × List String))
    (depart arrivee : String) : List (String × List String) :=
  match dico with
  | [] => [(depart, [arrivee])]
  | (k, v) :: reste =>
      if k = depart then (k, v ++ [arrivee]) :: reste
      else (k, v) :: ajouteCorrespondance reste depart arrivee

/-- Modelled from the spec: `init_dict_correspondance` of `utils1.py` builds,
from the correspondence rows `(arrival train id, departure train id)`, the
dictionary mapping each departure train id to the list of its arrival train
ids (surviving docstring and identifier table: `zip`, `append`,
`departure_train_id`, `arrival_train_id`). -/
def init_dict_correspondance (lignes : List (String × String)) :
    List (String × List String) :=
  lignes.foldl (fun dico ligne => ajouteCorrespondance dico ligne.2 ligne.1) []

/-- Lookup in the correspondence dictionary, with the empty list for an absent
departure id. -/
def correspondances (dico : List (String × List String)) (depart : String) :
    List String :=
  ((dico.find? (fun kv => kv.1 == depart)).map Prod.snd).getD []

/-- Modelled from the spec: the inter-job precedence constraints generated for
a departure job are one constraint per arrival job of its correspondence set
(the generating module `contraintes2.py` named by the repository's README is
absent from the repository). -/
def contraintesPrecedence (dico : List (String × List String)) (depart : String) :
    List (String × String) :=
  (correspondances dico depart).map (fun arrivee => (arrivee, depart))

/-- A raw spreadsheet cell as seen by `convert_hour_to_minutes` of `utils1.py`:
missing (`NaN`), a string, or a non-string value. -/
inductive Cellule where
  | nan : Cellule
  | chaine (s : String) : Cellule
  | autre : Cellule

/-- Python's `int()` applied to one split field, embedded as integer parsing of
the trimmed string (`None` models the `ValueError` raised on failure). -/
def pyInt? (s : String) : Option ℤ := s.trim.toInt?

/-- The `HH:MM` parse of `convert_hour_to_minutes`: split on `:`, convert both
fields with `int`, fail unless exactly two fields parse. -/
def analyseHHMM (s : String) : Option ℤ :=
  match (s.splitOn ":").map pyInt? with
  | [some heures, some minutes] => some (60 * heures + minutes)
  | _ => none

/-- The function `convert_hour_to_minutes` of `utils1.py` (surviving docstring:
« Convertit une heure au format HH:MM en minutes depuis minuit », returning
`int | None`, and identifier table `isna`, `isinstance`, `str`, `map`, `int`,
`split`, `ValueError`): `None` on a missing or non-string cell, the caught
`ValueError` also yielding `None`, otherwise the minutes since midnight. -/
def convert_hour_to_minutes : Cellule → Option ℤ
  | Cellule.nan => none
  | Cellule.autre => none
  | Cellule.chaine s => analyseHHMM s

/-- An optimisation model handle as `init_model` of `utils.py` would produce
one; the stub never constructs it. -/
inductive ModeleGurobi : Type where
  | modele : ModeleGurobi

/-- The function `init_model` of `code/module/utils.py`: its compiled body is
`return None`. -/
def init_model (_ : Unit) : Option ModeleGurobi := none

/-- The function `init_contr` of `code/module/utils.py`: its compiled body is
`return None`. -/
def init_contr (_ : Unit) : Option ModeleGurobi := none

/-- The malformed window `(1, 10:00-09:00)` whose end precedes its start. -/
def plageInversee : PlageBrute := ⟨1, 10, 0, 9, 0⟩

lemma un_parmi_deux (a b : Bool) (h : 1 ≤ b2i a + b2i b) : a = true ∨ b = true := by
  cases a <;> cases b <;> revert h <;> decide

lemma un_parmi_cinq (a b c d e : Bool)
    (h : 1 ≤ b2i a + b2i b + b2i c + b2i d + b2i e) :
    a = true ∨ b = true ∨ c = true ∨ d = true ∨ e = true := by
  cases a <;> cases b <;> cases c <;> cases d <;> cases e <;> revert h <;> decide

lemma produit_b2i (a b c : Bool) (hc : c = true) (h : b2i c = b2i a * b2i b) :
    a = true ∧ b = true := by
  subst hc; cases a <;> cases b <;> revert h <;> decide

/-- The test assignment satisfies every constraint of the notebook model. -/
lemma modeleRealisableTest : modeleRealisable taTest tdTest varsTest :=
  ⟨by decide, by decide, by decide, by decide⟩

/-- The five availability intervals are pairwise disjoint for any task of
positive duration, so a task interval fits inside at most one of them. -/
lemma calendrier_disjoint (t Tm : ℤ) (hT : 0 < Tm) :
    ∀ I ∈ calendrier, ∀ J ∈ calendrier,
      dansIntervalle t Tm I → dansIntervalle t Tm J → I = J := by
  have hcal : calendrier =
      [(0, some 300), (780, some 7980), (8460, some 9420),
       (9900, some 10380), (10860, none)] := by decide
  intro I hI J hJ h1 h2
  rw [hcal] at hI hJ
  simp only [List.mem_cons, List.not_mem_nil, or_false] at hI hJ
  rcases hI with rfl | rfl | rfl | rfl | rfl <;>
    rcases hJ with rfl | rfl | rfl | rfl | rfl <;>
      first
        | rfl
        | (exfalso; simp only [dansIntervalle] at h1 h2; omega)

/-- From the posted `delta_2` constraint group and the variable lower bound,
the task start lies in one of the five availability windows. -/
lemma delta2_une_bornes (Tm t : ℤ) (d : Fin 11 → Bool) (h0 : 0 ≤ t)
    (h : contraintesDelta2Une Tm t d) :
    (0 ≤ t ∧ t + Tm ≤ 300) ∨ (780 ≤ t ∧ t + Tm ≤ 7980) ∨
      (8460 ≤ t ∧ t + Tm ≤ 9420) ∨ (9900 ≤ t ∧ t + Tm ≤ 10380) ∨ 10860 ≤ t := by
  obtain ⟨c0, c1, c2, c3, c4, c5, c6, c7, p8, p9, p10, s⟩ := h
  have e0 : Limites 0 = 300 := by decide
  have e1 : Limites 1 = 780 := by decide
  have e2 : Limites 2 = 7980 := by decide
  have e3 : Limites 3 = 8460 := by decide
  have e4 : Limites 4 = 9420 := by decide
  have e5 : Limites 5 = 9900 := by decide
  have e6 : Limites 6 = 10380 := by decide
  have e7 : Limites 7 = 10860 := by decide
  rcases un_parmi_cinq _ _ _ _ _ s with hd | hd | hd | hd | hd
  · have := c0 hd; rw [e0] at this; exact Or.inl ⟨h0, by omega⟩
  · obtain ⟨hA, hB⟩ := produit_b2i _ _ _ hd p8
    have u := c1 hA; have w := c2 hB; rw [e1] at u; rw [e2] at w
    exact Or.inr (Or.inl ⟨u, by omega⟩)
  · obtain ⟨hA, hB⟩ := produit_b2i _ _ _ hd p9
    have u := c3 hA; have w := c4 hB; rw [e3] at u; rw [e4] at w
    exact Or.inr (Or.inr (Or.inl ⟨u, by omega⟩))
  · obtain ⟨hA, hB⟩ := produit_b2i _ _ _ hd p10
    have u := c5 hA; have w := c6 hB; rw [e5] at u; rw [e6] at w
    exact Or.inr (Or.inr (Or.inr (Or.inl ⟨u, by omega⟩)))
  · have := c7 hd; rw [e7] at this; exact Or.inr (Or.inr (Or.inr (Or.inr this)))

/-- Core fact behind the calendar-membership claim: the posted `delta_2` group
places the task interval inside exactly one availability interval. -/
lemma delta2_une_unique (Tm t : ℤ) (d : Fin 11 → Bool) (hT : 0 < Tm) (h0 : 0 ≤ t)
    (h : contraintesDelta2Une Tm t d) :
    ∃! I, I ∈ calendrier ∧ dansIntervalle t Tm I := by
  rcases delta2_une_bornes Tm t d h0 h with hb | hb | hb | hb | hb
  · exact ⟨(0, some 300), ⟨by decide, hb⟩,
      fun y hy => calendrier_disjoint t Tm hT y hy.1 (0, some 300) (by decide) hy.2 hb⟩
  · exact ⟨(780, some 7980), ⟨by decide, hb⟩,
      fun y hy => calendrier_disjoint t Tm hT y hy.1 (780, some 7980) (by decide) hy.2 hb⟩
  · exact ⟨(8460, some 9420), ⟨by decide, hb⟩,
      fun y hy => calendrier_disjoint t Tm hT y hy.1 (8460, some 9420) (by decide) hy.2 hb⟩
  · exact ⟨(9900, some 10380), ⟨by decide, hb⟩,
      fun y hy => calendrier_disjoint t Tm hT y hy.1 (9900, some 10380) (by decide) hy.2 hb⟩
  · exact ⟨(10860, none), ⟨by decide, hb⟩,
      fun y hy => calendrier_disjoint t Tm hT y hy.1 (10860, none) (by decide) hy.2 hb⟩

/-- C1 (amended): in every feasible assignment of the notebook model, the
interval `[start, start + duration)` of each calendar-constrained task lies
entirely inside exactly one availability interval of the calendar. -/
theorem appartenance_calendrier (ta td : Fin 5 → ℤ) (v : Jalon1Vars)
    (hfea : modeleRealisable ta td v) (m : Fin 7) (hm : m ∈ tachesDelta2) (n : Fin 5) :
    ∃! I, I ∈ calendrier ∧ dansIntervalle (v.t m n) (T m) I := by
  have h0 : 0 ≤ v.t m n := hfea.1 m n
  have hT : 0 < T m := by fin_cases hm <;> decide
  exact delta2_une_unique (T m) (v.t m n) (v.delta_2 m n) hT h0 (hfea.2.2.2 m hm n)

/-- Witness for `appartenance_calendrier` at the concrete test assignment. -/
theorem appartenance_calendrier_temoin :
    ∃! I, I ∈ calendrier ∧ dansIntervalle (varsTest.t 2 0) (T 2) I :=
  appartenance_calendrier taTest tdTest varsTest modeleRealisableTest 2 (by decide) 0

/-- C1 (counterexample to the claim as stated): an assignment that satisfies
every constraint the calendar cell posts for a task occurrence (task `2`,
start `0`) while its eleven introduced indicators sum to `2`, not `1`; the
generator therefore does not require the introduced indicators to sum to
exactly one. -/
theorem claim1_contre_exemple :
    contraintesDelta2Une (T 2) 0 dCex ∧
      b2i (dCex 0) + b2i (dCex 1) + b2i (dCex 2) + b2i (dCex 3) + b2i (dCex 4) +
        b2i (dCex 5) + b2i (dCex 6) + b2i (dCex 7) + b2i (dCex 8) + b2i (dCex 9) +
        b2i (dCex 10) = 2 := by decide

/-- C2: in every feasible assignment, two distinct wagons' occurrences of a
machine task never overlap in time: the machine cell's indicator pair and
covering constraint exclude any shared time point. -/
theorem exclusion_mutuelle (ta td : Fin 5 → ℤ) (v : Jalon1Vars)
    (hfea : modeleRealisable ta td v) (m : Fin 7) (hm : m ∈ machinesDelta1)
    (n1 n2 : Fin 5) (hne : n1 ≠ n2) :
    ¬ seChevauchent (v.t m n1) (T m) (v.t m n2) (T m) := by
  rintro ⟨x, ⟨ha1, ha2⟩, ⟨hb1, hb2⟩⟩
  rcases lt_or_gt_of_ne hne with hlt | hlt
  · obtain ⟨d0c, d1c, ds⟩ := hfea.2.2.1 m hm n1 n2 hlt
    rcases un_parmi_deux _ _ ds with hd | hd
    · have := d0c hd; omega
    · have := d1c hd; omega
  · obtain ⟨d0c, d1c, ds⟩ := hfea.2.2.1 m hm n2 n1 hlt
    rcases un_parmi_deux _ _ ds with hd | hd
    · have := d0c hd; omega
    · have := d1c hd; omega

/-- Witness for `exclusion_mutuelle` at the concrete test assignment. -/
theorem exclusion_mutuelle_temoin :
    ¬ seChevauchent (varsTest.t 2 0) (T 2) (varsTest.t 2 1) (T 2) :=
  exclusion_mutuelle taTest tdTest varsTest modeleRealisableTest 2 (by decide) 0 1 (by decide)

/-- C3: in every feasible assignment, consecutive tasks of a wagon satisfy
`start[k] + duration[k] ≤ start[k+1]`. -/
theorem ordre_taches (ta td : Fin 5 → ℤ) (v : Jalon1Vars)
    (hfea : modeleRealisable ta td v) (n : Fin 5) (k : ℕ) (hk : k < 6) :
    v.t ⟨k, Nat.lt_succ_of_lt hk⟩ n + T ⟨k, Nat.lt_succ_of_lt hk⟩ ≤
      v.t ⟨k + 1, Nat.succ_lt_succ hk⟩ n :=
  (hfea.2.1 n).2.2 ⟨k, hk⟩

/-- Witness for `ordre_taches` at the concrete test assignment. -/
theorem ordre_taches_temoin :
    varsTest.t ⟨0, Nat.lt_succ_of_lt (by decide)⟩ 0 + T ⟨0, Nat.lt_succ_of_lt (by decide)⟩ ≤
      varsTest.t ⟨0 + 1, Nat.succ_lt_succ (by decide)⟩ 0 :=
  ordre_taches taTest tdTest varsTest modeleRealisableTest 0 0 (by decide)

/-- C4: in every feasible assignment, each wagon's first task starts no earlier
than its arrival time and its last task ends no later than its departure time. -/
theorem respect_sillons (ta td : Fin 5 → ℤ) (v : Jalon1Vars)
    (hfea : modeleRealisable ta td v) (n : Fin 5) :
    ta n ≤ v.t 0 n ∧ v.t 6 n + T 6 ≤ td n :=
  ⟨(hfea.2.1 n).1, (hfea.2.1 n).2.1⟩

/-- Witness for `respect_sillons` at the concrete test assignment. -/
theorem respect_sillons_temoin :
    taTest 0 ≤ varsTest.t 0 0 ∧ varsTest.t 6 0 + T 6 ≤ tdTest 0 :=
  respect_sillons taTest tdTest varsTest modeleRealisableTest 0

/-- A week index is kept exactly when the shifted window start does not exceed
the horizon. -/
lemma nbSemaines_lt_iff (horizon debut : ℤ) (k : ℕ) :
    k < nbSemaines horizon debut ↔ debut + 10080 * (k : ℤ) ≤ horizon := by
  unfold nbSemaines
  split <;> omega

/-- C5: the extended unavailability list contains precisely the weekly copies
of the converted raw windows whose replicated start does not exceed the time
of the last departure. -/
theorem plages_hebdomadaires (plages : List PlageBrute) (departs : List ℤ)
    (q : ℤ × ℤ) :
    q ∈ convertir_en_minutes plages departs ↔
      ∃ p ∈ plages, ∃ k : ℕ,
        q = (debutMinutes p + 10080 * (k : ℤ), finMinutes p + 10080 * (k : ℤ)) ∧
        debutMinutes p + 10080 * (k : ℤ) ≤ dernier_depart departs := by
  constructor
  · intro hq
    rw [convertir_en_minutes, List.mem_flatMap] at hq
    obtain ⟨p, hp, hq⟩ := hq
    rw [plagesEtendues, List.mem_map] at hq
    obtain ⟨k, hk, hq⟩ := hq
    rw [List.mem_range] at hk
    exact ⟨p, hp, k, hq.symm, (nbSemaines_lt_iff _ _ _).mp hk⟩
  · rintro ⟨p, hp, k, rfl, hk⟩
    rw [convertir_en_minutes, List.mem_flatMap]
    refine ⟨p, hp, ?_⟩
    rw [plagesEtendues, List.mem_map]
    exact ⟨k, List.mem_range.mpr ((nbSemaines_lt_iff _ _ _).mpr hk), rfl⟩

/-- C6 (amended): the calendar builder validates nothing: every listed raw
window, the malformed ones with `end ≤ start` included, contributes its
converted copy; no error is ever produced. -/
theorem fenetre_acceptee (p : PlageBrute) (plages : List PlageBrute)
    (departs : List ℤ) (hp : p ∈ plages)
    (h : debutMinutes p ≤ dernier_depart departs) :
    (debutMinutes p, finMinutes p) ∈ convertir_en_minutes plages departs := by
  rw [convertir_en_minutes, List.mem_flatMap]
  refine ⟨p, hp, ?_⟩
  rw [plagesEtendues, List.mem_map]
  refine ⟨0, List.mem_range.mpr ((nbSemaines_lt_iff _ _ 0).mpr (by simpa using h)), by simp⟩

/-- Witness for `fenetre_acceptee` at the malformed window. -/
theorem fenetre_acceptee_temoin :
    (debutMinutes plageInversee, finMinutes plageInversee) ∈
      convertir_en_minutes [plageInversee] [1000] :=
  fenetre_acceptee plageInversee [plageInversee] [1000] (by simp) (by decide)

/-- C6 (counterexample to the claim as stated): the window `(1, 10:00-09:00)`
has `end ≤ start`, yet the calendar builder converts it to `(600, 540)` and
returns normally instead of failing. -/
theorem claim6_contre_exemple :
    finMinutes plageInversee ≤ debutMinutes plageInversee ∧
      convertir_en_minutes [plageInversee] [1000] = [(600, 540)] :=
  ⟨by decide, by decide⟩

/-- The keys of the dictionary after one insertion step. -/
lemma mem_fst_ajoute (dico : List (String × List String)) (dep arr k : String) :
    k ∈ (ajouteCorrespondance dico dep arr).map Prod.fst ↔
      k ∈ dico.map Prod.fst ∨ k = dep := by
  induction dico with
  | nil => simp [ajouteCorrespondance]
  | cons hd tl ih =>
      obtain ⟨k0, v0⟩ := hd
      simp only [ajouteCorrespondance]
      split
      · next heq => subst heq; simp only [List.map_cons, List.mem_cons]; tauto
      · next hne => simp only [List.map_cons, List.mem_cons, ih]; tauto

/-- The keys of the dictionary built by the correspondence fold are the
departure ids of the rows, next to those of the starting dictionary. -/
lemma mem_fst_fold (lignes : List (String × String))
    (dico : List (String × List String)) (k : String) :
    k ∈ (lignes.foldl (fun dico ligne => ajouteCorrespondance dico ligne.2 ligne.1)
          dico).map Prod.fst ↔
      k ∈ dico.map Prod.fst ∨ ∃ l ∈ lignes, l.2 = k := by
  induction lignes generalizing dico with
  | nil => simp
  | cons hd tl ih =>
      rw [List.foldl_cons, ih, mem_fst_ajoute]
      constructor
      · rintro ((h0 | h1) | ⟨l, hl, he⟩)
        · exact Or.inl h0
        · exact Or.inr ⟨hd, List.mem_cons_self hd tl, h1.symm⟩
        · exact Or.inr ⟨l, List.mem_cons_of_mem hd hl, he⟩
      · rintro (h0 | ⟨l, hl, he⟩)
        · exact Or.inl (Or.inl h0)
        · rcases List.mem_cons.mp hl with rfl | hl2
          · exact Or.inl (Or.inr he.symm)
          · exact Or.inr ⟨l, hl2, he⟩

/-- A departure id occurring in no row is not a key of the dictionary, so its
lookup yields the empty list. -/
lemma correspondances_absent (lignes : List (String × String)) (depart : String)
    (h : ∀ l ∈ lignes, l.2 ≠ depart) :
    correspondances (init_dict_correspondance lignes) depart = [] := by
  rw [correspondances]
  have hfind : (init_dict_correspondance lignes).find? (fun kv => kv.1 == depart)
      = none := by
    rw [List.find?_eq_none]
    intro kv hkv hbeq
    have hmem : kv.1 ∈ (init_dict_correspondance lignes).map Prod.fst :=
      List.mem_map_of_mem _ hkv
    rw [init_dict_correspondance, mem_fst_fold] at hmem
    rcases hmem with h0 | ⟨l, hl, he⟩
    · simp at h0
    · exact h l hl (he.trans (by simpa using hbeq))
  rw [hfind]
  rfl

/-- C7: a departure id absent from the correspondence rows maps to the empty
list in the resolver's output, and no inter-job precedence constraint is
generated for it. -/
theorem depart_sans_correspondance (lignes : List (String × String))
    (depart : String) (h : ∀ l ∈ lignes, l.2 ≠ depart) :
    correspondances (init_dict_correspondance lignes) depart = [] ∧
      contraintesPrecedence (init_dict_correspondance lignes) depart = [] := by
  have hc := correspondances_absent lignes depart h
  exact ⟨hc, by rw [contraintesPrecedence, hc]; rfl⟩

/-- Witness for `depart_sans_correspondance` at a concrete table. -/
theorem depart_sans_correspondance_temoin :
    correspondances (init_dict_correspondance [("A1", "D1")]) "D2" = [] ∧
      contraintesPrecedence (init_dict_correspondance [("A1", "D1")]) "D2" = [] :=
  depart_sans_correspondance [("A1", "D1")] "D2" (by decide)

/-- C8: the calendar builder for machines is deterministic: identical inputs
produce identical interval lists. -/
theorem limites_machines_deterministes (m1 m2 : List (String × List PlageBrute))
    (d1 d2 : List ℤ) (h1 : m1 = m2) (h2 : d1 = d2) :
    creation_limites_machines m1 d1 = creation_limites_machines m2 d2 := by
  rw [h1, h2]

/-- Witness for `limites_machines_deterministes` at a concrete input. -/
theorem limites_machines_deterministes_temoin :
    creation_limites_machines [("DEB", [plageInversee])] [1000] =
      creation_limites_machines [("DEB", [plageInversee])] [1000] :=
  limites_machines_deterministes [("DEB", [plageInversee])] [("DEB", [plageInversee])]
    [1000] [1000] rfl rfl

/-- C9: the module-level initialisation entry points are stubs: both return
`None` on every call and build nothing. -/
theorem stubs_init (u : Unit) : init_model u = none ∧ init_contr u = none :=
  ⟨rfl, rfl⟩

/-- Case analysis of the `HH:MM` parse: either the string splits into exactly
two integer fields and the parse returns their minute count, or it returns
`None`. -/
lemma analyseHHMM_cases (s : String) :
    (∃ a b, (s.splitOn ":").map pyInt? = [some a, some b] ∧
        analyseHHMM s = some (60 * a + b)) ∨
    ((∀ a b, (s.splitOn ":").map pyInt? ≠ [some a, some b]) ∧
        analyseHHMM s = none) := by
  rcases h : (s.splitOn ":").map pyInt? with _ | ⟨_ | a, _ | ⟨_ | b, _ | ⟨c, tl⟩⟩⟩ <;>
    first
      | exact Or.inl ⟨a, b, rfl, by simp only [analyseHHMM]; rw [h]⟩
      | exact Or.inr ⟨fun a b hab => by simp at hab, by simp only [analyseHHMM]; rw [h]⟩

/-- C10: `convert_hour_to_minutes` is total: a missing or non-string cell, and
a string without an `HH:MM` parse, yield `None` (the `ValueError` is caught),
and a string splitting into two integer fields yields the minutes since
midnight `60·hours + minutes`. -/
theorem conversion_heure_totale (c : Cellule) :
    (∃ s a b, c = Cellule.chaine s ∧
        (s.splitOn ":").map pyInt? = [some a, some b] ∧
        convert_hour_to_minutes c = some (60 * a + b)) ∨
    ((∀ s a b, c = Cellule.chaine s → (s.splitOn ":").map pyInt? ≠ [some a, some b]) ∧
        convert_hour_to_minutes c = none) := by
  cases c with
  | nan => exact Or.inr ⟨fun s a b hc => Cellule.noConfusion hc, rfl⟩
  | autre => exact Or.inr ⟨fun s a b hc => Cellule.noConfusion hc, rfl⟩
  | chaine s =>
      rcases analyseHHMM_cases s with ⟨a, b, hab, hv⟩ | ⟨hno, hv⟩
      · exact Or.inl ⟨s, a, b, rfl, hab, hv⟩
      · exact Or.inr ⟨fun s2 a b hc => (Cellule.chaine.inj hc) ▸ hno a b, hv⟩

end OptiFret
